import Mathlib

/-!
Verification of the web-search-chunk QA pipeline.

This file gives a shallow embedding of the core of the repository
(src/core/models.py, src/core/pipeline.py, src/main.py and the adapters
under src/adapters/) and proves or refutes the behavioural claims about
chunking, web search fan-out, timeout handling, the FAISS vector store,
contextual retrieval, reciprocal rank fusion, answer assembly and the
Qdrant session store.

Python strings manipulated character-by-character are modelled as
List Char; floats that are only ever moved around or compared for length
are modelled as rationals.
-/

namespace WebSearchChunk

/-- Python text handled at character granularity (slicing, strip). -/
abbrev PyStr := List Char

/-- Exception classes that the embedded code can raise. -/
inductive PyErr where
  | attributeError
  | indexError
  deriving DecidableEq

/-- Whitespace set of Python str.strip() (restricted to the ASCII
whitespace characters that can occur in the modelled inputs). -/
def pyIsSpace (c : Char) : Bool :=
  c = ' ' || c = '\t' || c = '\n' || c = '\r' || c = '\x0b' || c = '\x0c'

/-- Python str.strip(): drop leading and trailing whitespace. -/
def pyStrip (s : PyStr) : PyStr :=
  ((s.dropWhile pyIsSpace).reverse.dropWhile pyIsSpace).reverse

/-- Python range(start, stop, step) for a positive step. -/
def pyRange (start stop step : Nat) : List Nat :=
  (List.range ((stop - start + step - 1) / step)).map (fun k => start + k * step)

/-- Truthiness of an optional Python list (None and [] are falsy). -/
def truthyEmbedding : Option (List ℚ) → Bool
  | none => false
  | some [] => false
  | some (_ :: _) => true

/- ============= Domain models (src/core/models.py) ============= -/

/-- SearchQuery (models.py lines 12-18).  The timestamp field is a
creation instant with no behavioural role in the claims and is omitted. -/
structure SearchQuery where
  original_query : String
  processed_queries : List String := []
  language : String := "ko"
  deriving DecidableEq

/-- WebDocument (models.py lines 21-27). -/
structure WebDocument where
  url : String
  title : Option String := none
  snippet : Option String := none
  search_query : String
  deriving DecidableEq

/-- WebDocumentContent (models.py lines 30-36).  Its declared fields are
exactly url, content, crawl_datetime and metadata; in particular there is
no document_id field.  crawl_datetime is carried as its isoformat string. -/
structure WebDocumentContent where
  url : String
  content : PyStr
  crawl_datetime : String := ""
  metadata : List (String × String) := []
  deriving DecidableEq

/-- Metadata dictionary attached to a SemanticChunk by the chunkers
(chunking_adapter.py lines 38-43 and 147-154). -/
structure ChunkMetadata where
  position : Nat
  query : String
  parent_document_id : String
  updated_at : String
  original_content : Option PyStr := none
  contextual_retrieval : Option Bool := none
  deriving DecidableEq

/-- SemanticChunk (models.py lines 39-47).  created_at is a creation
instant with no behavioural role and is omitted; metadata defaults to the
empty dict, modelled as none. -/
structure SemanticChunk where
  chunk_id : String
  content : PyStr
  source_url : String
  embedding : Option (List ℚ) := none
  metadata : Option ChunkMetadata := none
  deriving DecidableEq

/-- ScratchPad (models.py lines 50-56). -/
structure ScratchPad where
  query : String
  chunks : List SemanticChunk
  scores : List ℚ
  deriving DecidableEq

/-- QAResponse (models.py lines 59-66). -/
structure QAResponse where
  query : String
  answer : String
  sources : List String
  confidence : ℚ := 0
  processing_time : ℚ := 0
  deriving DecidableEq

/- ============= Chunking (src/adapters/chunking_adapter.py) ============= -/

/-- Python attribute access document.document_id.  WebDocumentContent
(models.py lines 30-36) declares no field named document_id, and nothing
in the repository ever assigns one, so this access raises AttributeError
on every instance. -/
def WebDocumentContent.document_id (_document : WebDocumentContent) :
    Except PyErr String :=
  .error .attributeError

/-- The MD5 hex digest of hashlib.md5(s).hexdigest();  no claim depends on
the digest value, only on it being a deterministic function of its input,
so the digest is modelled by the input string itself. -/
def md5Hex (s : String) : String := s

/-- SimpleChunkingAdapter (chunking_adapter.py lines 9-14). -/
structure SimpleChunkingAdapter where
  chunk_size : Nat := 1000
  overlap : Nat := 200

/-- SimpleChunkingAdapter.chunk_document (chunking_adapter.py lines 16-47):
sliding window over the content, discard windows whose stripped length is
below 50, and build a SemanticChunk whose metadata reads
document.document_id.  The loop is a fold over the window offsets; the
first raised exception aborts it. -/
def SimpleChunkingAdapter.chunk_document (a : SimpleChunkingAdapter)
    (document : WebDocumentContent) (query : String) :
    Except PyErr (List SemanticChunk) :=
  (pyRange 0 document.content.length (a.chunk_size - a.overlap)).foldlM
    (fun chunks i =>
      let chunk_text := (document.content.drop i).take a.chunk_size
      if (pyStrip chunk_text).length < 50 then
        pure chunks
      else do
        let chunk_id := md5Hex
          (document.url ++ "_" ++ toString i ++ "_" ++
            String.mk (chunk_text.take 50))
        let parent ← document.document_id
        pure (chunks ++ [{
          chunk_id := chunk_id
          content := chunk_text
          source_url := document.url
          metadata := some {
            position := i
            query := query
            parent_document_id := parent
            updated_at := document.crawl_datetime } }]))
    []

/-- Raw chunk dictionary built by ContextualChunkingAdapter._create_raw_chunks
(chunking_adapter.py lines 88-92). -/
structure RawChunk where
  text : PyStr
  position : Nat
  url : String
  deriving DecidableEq

namespace ContextualChunkingAdapter

/-- ContextualChunkingAdapter._create_raw_chunks (chunking_adapter.py lines
79-94): the same sliding window and sub-50-character discard as the simple
chunker (lines 24-27), producing raw dictionaries. -/
def create_raw_chunks (chunk_size overlap : Nat) (content : PyStr)
    (url : String) : List RawChunk :=
  (pyRange 0 content.length (chunk_size - overlap)).filterMap (fun i =>
    let chunk_text := (content.drop i).take chunk_size
    if (pyStrip chunk_text).length < 50 then none
    else some ⟨chunk_text, i, url⟩)

/-- ContextualChunkingAdapter._create_context_prompt (chunking_adapter.py
lines 160-180): the per-chunk prompt embedding the full document and the
chunk.  The fixed Korean instruction text is abbreviated to its frame,
which is all any claim can observe. -/
def create_context_prompt (chunk_text full_document : PyStr) : PyStr :=
  ("\n<document>\n".data ++ full_document ++ "\n</document>\n\n".data)
    ++ ("Here is the chunk we want to situate within the whole document:\n<chunk>\n".data
      ++ chunk_text ++ "\n</chunk>\n".data)

/-- Lines 130-136 of chunking_adapter.py: combine the per-chunk LLM
response with the raw passage.  Mirrors the Python condition
(context_response and context_response.strip()) and the f-string
f"{context_response.strip()}\\n\\n{chunk_data[text]}", whose separator
is the four literal characters backslash n backslash n (the backslashes
are escaped in the Python source), not two newline characters. -/
def combine_context (context_response : PyStr) (raw : PyStr) : PyStr :=
  if !context_response.isEmpty && !(pyStrip context_response).isEmpty then
    pyStrip context_response ++ "\\n\\n".data ++ raw
  else
    raw

/-- ContextualChunkingAdapter._add_context_to_chunks (chunking_adapter.py
lines 96-158).  The LLM service is a function from prompt to result; a
per-call exception is captured by asyncio.gather(return_exceptions=True)
and replaced by the empty response (lines 113-119).  Chunk construction
reads document.document_id inside the metadata dictionary (line 152) and
sets contextual_retrieval to the literal True (line 151). -/
def add_context_to_chunks (llm : PyStr → Except Unit PyStr)
    (raw_chunks : List RawChunk) (full_document : PyStr) (query : String)
    (document : WebDocumentContent) : Except PyErr (List SemanticChunk) :=
  let prompts := raw_chunks.map (fun cd => create_context_prompt cd.text full_document)
  let results := prompts.map llm
  let contextual_responses := results.map (fun r =>
    match r with
    | .error _ => ([] : PyStr)
    | .ok s => s)
  (raw_chunks.zip contextual_responses).foldlM
    (fun acc p =>
      let contextual_content := combine_context p.2 p.1.text
      do
        let chunk_id := md5Hex
          (p.1.url ++ "_" ++ toString p.1.position ++ "_" ++
            String.mk (p.1.text.take 50))
        let parent ← document.document_id
        pure (acc ++ [{
          chunk_id := chunk_id
          content := contextual_content
          source_url := p.1.url
          metadata := some {
            position := p.1.position
            query := query
            parent_document_id := parent
            updated_at := document.crawl_datetime
            original_content := some p.1.text
            contextual_retrieval := some true } }]))
    []

/-- ContextualChunkingAdapter.chunk_document (chunking_adapter.py lines
58-77): raw chunking, early return on an empty partition, then context
augmentation. -/
def chunk_document (llm : PyStr → Except Unit PyStr) (chunk_size overlap : Nat)
    (document : WebDocumentContent) (query : String) :
    Except PyErr (List SemanticChunk) :=
  let raw_chunks := create_raw_chunks chunk_size overlap document.content document.url
  if raw_chunks.isEmpty then .ok []
  else add_context_to_chunks llm raw_chunks document.content query document

end ContextualChunkingAdapter

/-- A 100-character document body with no whitespace. -/
def exampleContent : PyStr := List.replicate 100 'a'

/-- Concrete crawled document used as failing input. -/
def exampleDocument : WebDocumentContent :=
  { url := "https://example.com/doc"
    content := exampleContent
    crawl_datetime := "2024-12-15T10:00:00" }

/- ============= Pipeline stages (src/core/pipeline.py) ============= -/

/-- The task list comprehension of QAPipeline.search_web (pipeline.py
lines 96-99): for every entry of state[search_queries] it evaluates
query.processed_queries[0] (raising IndexError on an empty list) and
issues one search call with max_results = 7. -/
def buildSearchCalls : List SearchQuery → Except PyErr (List (String × Nat))
  | [] => .ok []
  | query :: rest =>
      match query.processed_queries with
      | [] => .error .indexError
      | q :: _ => do
          let calls ← buildSearchCalls rest
          return (q, 7) :: calls

/-- The result-collection loop of search_web (pipeline.py lines 102-108):
extend by results that are lists, skip results that are exceptions. -/
def collectDocuments (results : List (Except Unit (List WebDocument))) :
    List WebDocument :=
  results.foldl
    (fun acc r =>
      match r with
      | .ok docs => acc ++ docs
      | .error _ => acc)
    []

/-- QAPipeline.search_web (pipeline.py lines 93-112): build the task
list, fan out (the search service is a function from (query, max_results)
to a result or an exception), and collect the documents.  The returned
pair is (the issued calls, the collected web documents). -/
def searchWeb (search_queries : List SearchQuery)
    (search : String → Nat → Except Unit (List WebDocument)) :
    Except PyErr (List (String × Nat) × List WebDocument) := do
  let calls ← buildSearchCalls search_queries
  return (calls, collectDocuments (calls.map (fun c => search c.1 c.2)))

/-- QAPipeline.generate_answer (pipeline.py lines 227-246): build the
context block from the scratchpad, call the LLM, and construct the
QAResponse whose sources are the source_url of each scratchpad chunk in
scratchpad order. -/
def generateAnswer (user_query : String) (scratch_pad : ScratchPad)
    (llm : String → String → String) (start_time now : ℚ) : QAResponse :=
  let context := String.intercalate "\n\n"
    (scratch_pad.chunks.map (fun chunk =>
      "[Source: " ++ chunk.source_url ++ "]\n" ++ String.mk chunk.content))
  let answer := llm user_query context
  { query := user_query
    answer := answer
    sources := scratch_pad.chunks.map (fun chunk => chunk.source_url)
    processing_time := now - start_time }

/- ============= System entry (src/main.py) ============= -/

/-- Result dictionary returned by WebSearchQASystem.process_query.  The
partial_response key, always None in the source, is omitted. -/
structure ProcessQueryDict where
  success : Bool
  response : Option QAResponse := none
  processing_time : Option ℚ := none
  error : Option String := none
  deriving DecidableEq

/-- Outcome of awaiting asyncio.wait_for(self.pipeline.run(query), ...):
either a response, a TimeoutError from the deadline, or an exception
propagated from the pipeline. -/
inductive RunOutcome where
  | ok (response : QAResponse)
  | timeoutError
  | exn (message : String)
  deriving DecidableEq

/-- Exceptions that can escape the try body of process_query. -/
inductive MainExn where
  | timeoutError
  | exn (message : String)
  deriving DecidableEq

/-- Body of the try block of WebSearchQASystem.process_query (main.py lines
155-171).  _load_session_data and _save_session_data swallow their own
exceptions internally (main.py lines 185-212), so only the pipeline run
can escape.  The Bool records whether the session save was reached. -/
def processQueryBody (run_outcome : RunOutcome) :
    Except MainExn (ProcessQueryDict × Bool) :=
  match run_outcome with
  | .ok response =>
      .ok ({ success := true
             response := some response
             processing_time := some response.processing_time }, true)
  | .timeoutError => .error .timeoutError
  | .exn m => .error (.exn m)

/-- WebSearchQASystem.process_query (main.py lines 153-183): the try body,
an except branch for asyncio.TimeoutError returning the fixed message
dictionary, and a final except Exception branch returning the stringified
exception.  The Bool is true iff the session save was performed. -/
def processQuery (run_outcome : RunOutcome) : ProcessQueryDict × Bool :=
  match processQueryBody run_outcome with
  | .ok d => d
  | .error .timeoutError =>
      ({ success := false
         error := some "Processing exceeded 10 seconds timeout" }, false)
  | .error (.exn m) => ({ success := false, error := some m }, false)

/- ===== Vector store (src/adapters/vector_store_adapter.py) ===== -/

/-- FAISSVectorStore state: the index dimension, the rows stored in the
flat L2 index (faiss.IndexFlatL2), and the parallel Python chunk list. -/
structure FAISSVectorStore where
  dimension : Nat
  index : List (List ℚ)
  chunks : List SemanticChunk

/-- FAISSVectorStore.__init__ (vector_store_adapter.py lines 10-13). -/
def FAISSVectorStore.init (dimension : Nat) : FAISSVectorStore :=
  { dimension := dimension, index := [], chunks := [] }

/-- FAISSVectorStore.add_chunks (vector_store_adapter.py lines 15-25): the
loop appends every chunk with a truthy embedding to self.chunks and its
embedding to a local list; then, if that list is non-empty, it is handed
to numpy and faiss.  numpy rejects ragged rows and IndexFlatL2.add rejects
rows whose length differs from the index dimension, so the index grows
only when every collected embedding has exactly the index dimension;
otherwise an exception is raised after self.chunks was already extended.
The Except value records whether the call raised. -/
def FAISSVectorStore.add_chunks (s : FAISSVectorStore)
    (cs : List SemanticChunk) : FAISSVectorStore × Except Unit Unit :=
  let kept := cs.filter (fun c => truthyEmbedding c.embedding)
  let embeddings := kept.map (fun c => c.embedding.getD [])
  let s' := { s with chunks := s.chunks ++ kept }
  if embeddings.isEmpty then (s', .ok ())
  else if embeddings.all (fun v => v.length = s.dimension) then
    ({ s' with index := s.index ++ embeddings }, .ok ())
  else (s', .error ())

/-- FAISSVectorStore.clear (vector_store_adapter.py lines 42-45): fresh
index of the same dimension and empty chunk list. -/
def FAISSVectorStore.clear (s : FAISSVectorStore) : FAISSVectorStore :=
  FAISSVectorStore.init s.dimension

/-- Operations of the store interface.  FAISSVectorStore.search (lines
27-40) only reads the index and self.chunks and mutates neither, so it is
the identity on the state. -/
inductive VectorStoreOp where
  | add (cs : List SemanticChunk)
  | search
  | clear

/-- Run a sequence of store operations, following the source in ignoring
the outcome of each add (exceptions abort the Python call but the state
mutation to self.chunks has already happened). -/
def runVectorStoreOps (s : FAISSVectorStore) :
    List VectorStoreOp → FAISSVectorStore
  | [] => s
  | .add cs :: rest => runVectorStoreOps (s.add_chunks cs).1 rest
  | .search :: rest => runVectorStoreOps s rest
  | .clear :: rest => runVectorStoreOps s.clear rest

/- ===== Hybrid retrieval / RRF (src/adapters/retrieval_adapter.py) ===== -/

/-- One entry of the ranked result lists handed to the fusion step: the
Python dictionary value of the form (chunk, score). -/
structure RetrievalItem where
  chunk : SemanticChunk
  score : ℚ
  deriving DecidableEq

/-- Insertion-ordered Python dict update d[key] = val: overwrite in place
if the key exists, else append. -/
def dictSet {β : Type} : List (String × β) → String → β → List (String × β)
  | [], key, val => [(key, val)]
  | (k, v) :: rest, key, val =>
      if k = key then (k, val) :: rest else (k, v) :: dictSet rest key val

/-- Python dict lookup returning an Option. -/
def dictFind {β : Type} : List (String × β) → String → Option β
  | [], _ => none
  | (k, v) :: rest, key => if k = key then some v else dictFind rest key

/-- Python scores.get(chunk_id, 0). -/
def dictGet (m : List (String × ℚ)) (key : String) : ℚ :=
  (dictFind m key).getD 0

/-- One enumerate loop of _reciprocal_rank_fusion (retrieval_adapter.py
lines 127-133): starting at the given rank, add 1 / (k + rank + 1) to the
accumulated score of each item, keyed by the chunk_id of its chunk. -/
def rrfPass (kconst : Nat) : List (String × ℚ) → List RetrievalItem → Nat →
    List (String × ℚ)
  | m, [], _ => m
  | m, item :: rest, rank =>
      rrfPass kconst
        (dictSet m item.chunk.chunk_id
          (dictGet m item.chunk.chunk_id + 1 / ((kconst : ℚ) + rank + 1)))
        rest (rank + 1)

/-- Descending order on scored pairs used by
sorted(scores.items(), key=lambda x: x[1], reverse=True). -/
def rrfDescending (a b : String × ℚ) : Prop := b.2 ≤ a.2

instance : DecidableRel rrfDescending :=
  fun a b => inferInstanceAs (Decidable (b.2 ≤ a.2))

instance : IsTotal (String × ℚ) rrfDescending :=
  ⟨fun a b => le_total b.2 a.2⟩

instance : IsTrans (String × ℚ) rrfDescending :=
  ⟨fun _ _ _ h h' => le_trans h' h⟩

/-- The chunk_map dict comprehension of retrieval_adapter.py lines
138-140: keyed by chunk_id over vector_results + keyword_results, the
last occurrence of a key winning. -/
def rrfChunkMap (items : List RetrievalItem) : List (String × RetrievalItem) :=
  items.foldl (fun m item => dictSet m item.chunk.chunk_id item) []

/-- HybridRetrievalAdapter._reciprocal_rank_fusion (retrieval_adapter.py
lines 121-147).  Python sorted is a stable sort; List.insertionSort is
stable for a total transitive relation, hence extensionally the same
ordering.  The result keeps the sorted score pairs alongside the fused
item list so the claims can speak about the fused scores. -/
def reciprocal_rank_fusion (vector_results keyword_results : List RetrievalItem)
    (kconst : Nat := 60) :
    List (String × ℚ) × List (String × ℚ) × List RetrievalItem :=
  let scores := rrfPass kconst (rrfPass kconst [] vector_results 0)
    keyword_results 0
  let sorted_chunks := List.insertionSort rrfDescending scores
  let chunk_map := rrfChunkMap (vector_results ++ keyword_results)
  let result := sorted_chunks.filterMap (fun p => dictFind chunk_map p.1)
  (scores, sorted_chunks, result)

/- ===== Session store (src/adapters/persistent_store_adapter.py) ===== -/

/-- Qdrant PointStruct as built by save_session. -/
structure PointStruct where
  id : Nat
  vector : List ℚ
  payload : SemanticChunk
  deriving DecidableEq

/-- The point list built by QdrantPersistentStore.save_session
(persistent_store_adapter.py lines 47-55): enumerate the full input list
and keep a point for every chunk with a truthy embedding, its id being
the enumeration index. -/
def saveSessionPoints (chunks : List SemanticChunk) : List PointStruct :=
  chunks.enum.filterMap (fun p =>
    if truthyEmbedding p.2.embedding then
      some { id := p.1, vector := p.2.embedding.getD [], payload := p.2 }
    else none)

/-- Keyed update of the Qdrant collection by point id. -/
def collectionSet : List (Nat × PointStruct) → Nat → PointStruct →
    List (Nat × PointStruct)
  | [], key, val => [(key, val)]
  | (k, v) :: rest, key, val =>
      if k = key then (k, val) :: rest else (k, v) :: collectionSet rest key val

/-- Keyed lookup in the Qdrant collection. -/
def collectionFind : List (Nat × PointStruct) → Nat → Option PointStruct
  | [], _ => none
  | (k, v) :: rest, key => if k = key then some v else collectionFind rest key

/-- client.upsert (persistent_store_adapter.py line 58): points whose id
already exists in the collection are overwritten, all other points of the
collection are left untouched. -/
def qdrantUpsert (coll : List (Nat × PointStruct)) (points : List PointStruct) :
    List (Nat × PointStruct) :=
  points.foldl (fun c p => collectionSet c p.id p) coll

/-- QdrantPersistentStore.save_session applied to a collection state:
upsert the points derived from the chunk list. -/
def saveSession (coll : List (Nat × PointStruct))
    (chunks : List SemanticChunk) : List (Nat × PointStruct) :=
  qdrantUpsert coll (saveSessionPoints chunks)

/-- C1: the claim says chunk_document returns normally and the access to
document.document_id never fails.  In the code, WebDocumentContent has no
document_id field, so both chunking strategies raise AttributeError as
soon as they emit a chunk: on a 100-character document (one kept window)
the simple adapter and the contextual adapter (with an always-succeeding
LLM) both raise instead of returning a chunk list. -/
theorem c1_chunk_document_raises_attribute_error :
    SimpleChunkingAdapter.chunk_document {} exampleDocument "q"
        = .error .attributeError
      ∧ ContextualChunkingAdapter.chunk_document
          (fun _ => .ok "context".data) 1000 200 exampleDocument "q"
        = .error .attributeError := by
  constructor <;> rfl

/-- C3 counterexample: on the timeout path process_query does take the
failure branch, but its error string is the fixed message
"Processing exceeded 10 seconds timeout", which is not equal to
"timeout" as the claim states. -/
theorem c3_timeout_error_not_equal_timeout :
    (processQuery .timeoutError).1.success = false
      ∧ (processQuery .timeoutError).1.error
          = some "Processing exceeded 10 seconds timeout"
      ∧ (processQuery .timeoutError).1.error ≠ some "timeout" := by
  refine ⟨rfl, rfl, ?_⟩
  decide

/-- C3 amended: when the pipeline run exceeds max_processing_time,
process_query returns success = false with an error string that contains
"timeout" (namely "Processing exceeded 10 seconds timeout"), and the
session save is not performed. -/
theorem c3_timeout_amended :
    (processQuery .timeoutError).1.success = false
      ∧ (processQuery .timeoutError).1.error
          = some ("Processing exceeded 10 seconds " ++ "timeout")
      ∧ (processQuery .timeoutError).2 = false := by
  refine ⟨rfl, ?_, rfl⟩
  rfl

/-- C9: process_query is a total function of the pipeline outcome - the
try/except structure converts every escaping exception into a result
dictionary - and the dictionary always has a boolean success key, a
response on the success branch and an error string on every failure
branch. -/
theorem c9_process_query_never_raises (run_outcome : RunOutcome) :
    ((processQuery run_outcome).1.success = true
        ∧ ((processQuery run_outcome).1.response).isSome = true)
      ∨ ((processQuery run_outcome).1.success = false
        ∧ ((processQuery run_outcome).1.error).isSome = true) := by
  cases run_outcome <;> simp [processQuery, processQueryBody]

/-- Order-preserving deduplication, keeping the first occurrence of every
URL: the operation the claim says is applied to the scratchpad URLs. -/
def dedupKeepFirst : List String → List String
  | [] => []
  | x :: rest => x :: (dedupKeepFirst rest).filter (fun y => y ≠ x)

/-- Scratchpad whose two chunks share one source URL. -/
def duplicateUrlPad : ScratchPad :=
  { query := "q"
    chunks :=
      [{ chunk_id := "c1", content := "first passage".data
         source_url := "https://a.com" },
       { chunk_id := "c2", content := "second passage".data
         source_url := "https://a.com" }]
    scores := [1, 1/2] }

/-- C8 counterexample: on a scratchpad whose two chunks share a source
URL, generate_answer emits the URL twice, so QAResponse.sources is not
the deduplicated URL sequence the claim describes. -/
theorem c8_sources_not_deduplicated :
    (generateAnswer "q" duplicateUrlPad (fun _ _ => "answer") 0 0).sources
        = ["https://a.com", "https://a.com"]
      ∧ (generateAnswer "q" duplicateUrlPad (fun _ _ => "answer") 0 0).sources
        ≠ dedupKeepFirst
            (duplicateUrlPad.chunks.map (fun c => c.source_url)) := by
  refine ⟨rfl, ?_⟩
  decide

/-- C8 amended: QAResponse.sources is the sequence of source URLs of the
scratchpad chunks in scratchpad order, with duplicates kept (no
deduplication is performed). -/
theorem c8_sources_amended (user_query : String) (scratch_pad : ScratchPad)
    (llm : String → String → String) (start_time now : ℚ) :
    (generateAnswer user_query scratch_pad llm start_time now).sources
      = scratch_pad.chunks.map (fun chunk => chunk.source_url) := rfl

/-- C5: evaluation of the contextual combination at concrete inputs.  On
a successful LLM call the indexed content joins context and passage with
the four literal characters backslash n backslash n (the f-string on
line 133 escapes its backslashes), not with two newline characters; on a
failed call the raw passage is kept; and chunk construction aborts with
AttributeError (line 152 reads the missing document.document_id) before
any chunk, with its contextual_retrieval := True literal of line 151,
is emitted. -/
theorem c5_contextual_content_evaluation :
    ContextualChunkingAdapter.combine_context "ctx".data exampleContent
        = "ctx".data ++ "\\n\\n".data ++ exampleContent
      ∧ ContextualChunkingAdapter.combine_context "ctx".data exampleContent
        ≠ "ctx".data ++ "\n\n".data ++ exampleContent
      ∧ ContextualChunkingAdapter.combine_context [] exampleContent
        = exampleContent
      ∧ ContextualChunkingAdapter.chunk_document (fun _ => .error ())
          1000 200 exampleDocument "q" = .error .attributeError := by
  refine ⟨rfl, ?_, rfl, rfl⟩
  decide

/-- Search query shaped like the output of VLLMAdapter.generate_queries
(llm_adapter.py lines 58-63): one SearchQuery carrying all expansions. -/
def expandedQuery : SearchQuery :=
  { original_query := "orig", processed_queries := ["q1", "q2", "q3"] }

/-- C2 counterexample: for an expander output carrying three processed
queries in one SearchQuery, search_web issues exactly one search call
(for the first entry only), not one call per entry of processed_queries. -/
theorem c2_one_call_per_query_object :
    searchWeb [expandedQuery] (fun _ _ => .ok []) = .ok ([("q1", 7)], [])
      ∧ [("q1", 7)].length ≠ expandedQuery.processed_queries.length := by
  refine ⟨rfl, ?_⟩
  decide

theorem buildSearchCalls_of_nonempty :
    ∀ sqs : List SearchQuery, (∀ sq ∈ sqs, sq.processed_queries ≠ []) →
      buildSearchCalls sqs
        = .ok (sqs.map (fun sq => (sq.processed_queries.headD "", 7)))
  | [], _ => rfl
  | sq :: rest, h => by
      have hne : sq.processed_queries ≠ [] := h sq (by simp)
      have ih := buildSearchCalls_of_nonempty rest
        (fun q hq => h q (List.mem_cons_of_mem _ hq))
      cases hpq : sq.processed_queries with
      | nil => exact absurd hpq hne
      | cons q qs =>
          simp [buildSearchCalls, hpq, ih]

theorem collectDocuments_foldl_all_ok :
    ∀ (rss : List (List WebDocument)) (acc : List WebDocument),
      ((rss.map (Except.ok (ε := Unit))).foldl
        (fun acc r =>
          match r with
          | .ok docs => acc ++ docs
          | .error _ => acc) acc) = acc ++ rss.flatten
  | [], acc => by simp
  | rs :: rest, acc => by
      simp [collectDocuments_foldl_all_ok rest (acc ++ rs), List.append_assoc]

/-- C2 amended: search_web issues exactly one search call per SearchQuery
element of the expander output (not one per entry of processed_queries),
each call using the first processed query with max_results = 7; its
document output collects the per-call results in call order, and when
every call succeeds it is exactly the concatenation of the per-query
result lists. -/
theorem c2_search_web_amended (sqs : List SearchQuery)
    (search : String → Nat → Except Unit (List WebDocument))
    (h : ∀ sq ∈ sqs, sq.processed_queries ≠ []) :
    searchWeb sqs search
        = .ok (sqs.map (fun sq => (sq.processed_queries.headD "", 7)),
          collectDocuments
            ((sqs.map (fun sq => (sq.processed_queries.headD "", 7))).map
              (fun c => search c.1 c.2)))
      ∧ ∀ rss : List (List WebDocument),
          (sqs.map (fun sq => (sq.processed_queries.headD "", 7))).map
              (fun c => search c.1 c.2) = rss.map Except.ok →
          collectDocuments
            ((sqs.map (fun sq => (sq.processed_queries.headD "", 7))).map
              (fun c => search c.1 c.2)) = rss.flatten := by
  constructor
  · simp [searchWeb, buildSearchCalls_of_nonempty sqs h]
  · intro rss hok
    rw [collectDocuments, hok]
    simpa using collectDocuments_foldl_all_ok rss []

/-- Witness for c2_search_web_amended at a concrete expander output and a
search service answering every query with one document. -/
theorem c2_search_web_amended_witness :
    (∀ sq ∈ [expandedQuery], sq.processed_queries ≠ [])
      ∧ searchWeb [expandedQuery]
          (fun q _ => .ok [{ url := q, search_query := "orig" }])
        = .ok ([("q1", 7)],
            collectDocuments
              (([expandedQuery].map
                (fun sq => (sq.processed_queries.headD "", 7))).map
                (fun c =>
                  (fun q _ => Except.ok (ε := Unit)
                    [{ url := q, search_query := "orig" : WebDocument }])
                    c.1 c.2))) :=
  ⟨by decide,
    (c2_search_web_amended [expandedQuery]
      (fun q _ => .ok [{ url := q, search_query := "orig" }])
      (by decide)).1⟩

/-- Chunk whose embedding is set but empty: non-null in the sense of the
claim, yet falsy for the truthiness test of the source. -/
def emptyEmbeddingChunk : SemanticChunk :=
  { chunk_id := "c0", content := "passage".data, source_url := "u"
    embedding := some [] }

/-- C10 counterexample: a chunk with the non-null embedding [] is skipped
by save_session (the source tests truthiness, and an empty list is falsy),
so the upserted points are not exactly the chunks with a non-null
embedding. -/
theorem c10_empty_embedding_not_saved :
    saveSessionPoints [emptyEmbeddingChunk] = []
      ∧ emptyEmbeddingChunk.embedding ≠ none := by
  exact ⟨rfl, by decide⟩

theorem truthyEmbedding_iff (e : Option (List ℚ)) :
    truthyEmbedding e = true ↔ ∃ v, e = some v ∧ v ≠ [] := by
  cases e with
  | none => simp [truthyEmbedding]
  | some v => cases v <;> simp [truthyEmbedding]

theorem collectionFind_collectionSet_ne
    (coll : List (Nat × PointStruct)) (k : Nat) (v : PointStruct) (i : Nat)
    (h : k ≠ i) :
    collectionFind (collectionSet coll k v) i = collectionFind coll i := by
  induction coll with
  | nil => simp [collectionSet, collectionFind, h]
  | cons kv rest ih =>
      obtain ⟨k', v'⟩ := kv
      by_cases hk : k' = k
      · subst hk
        simp [collectionSet, collectionFind, h]
      · simp [collectionSet, hk, collectionFind]
        by_cases hi : k' = i
        · simp [hi]
        · simp [hi, ih]

theorem collectionFind_qdrantUpsert_of_not_mem :
    ∀ (points : List PointStruct) (coll : List (Nat × PointStruct)) (i : Nat),
      (∀ q ∈ points, q.id ≠ i) →
      collectionFind (qdrantUpsert coll points) i = collectionFind coll i
  | [], _, _, _ => rfl
  | p :: rest, coll, i, h => by
      have hp : p.id ≠ i := h p (by simp)
      have step : qdrantUpsert coll (p :: rest)
          = qdrantUpsert (collectionSet coll p.id p) rest := rfl
      rw [step,
        collectionFind_qdrantUpsert_of_not_mem rest _ i
          (fun q hq => h q (List.mem_cons_of_mem _ hq)),
        collectionFind_collectionSet_ne _ _ _ _ hp]

theorem mem_saveSessionPoints_characterization
    (chunks : List SemanticChunk) (p : PointStruct) :
    p ∈ saveSessionPoints chunks →
      chunks[p.id]? = some p.payload
        ∧ p.payload.embedding = some p.vector ∧ p.vector ≠ [] := by
  intro hp
  obtain ⟨⟨i, c⟩, hmem, heq⟩ := List.mem_filterMap.mp hp
  by_cases ht : truthyEmbedding c.embedding = true
  · obtain ⟨v, hv, hvne⟩ := (truthyEmbedding_iff c.embedding).mp ht
    simp only [ht, if_true] at heq
    have hpv : p = { id := i, vector := c.embedding.getD [], payload := c } := by
      simpa using heq.symm
    subst hpv
    refine ⟨?_, ?_, ?_⟩
    · simpa using (List.mk_mem_enum_iff_getElem?).mp hmem
    · simp [hv]
    · simp [hv, hvne]
  · simp only [Bool.not_eq_true] at ht
    simp [ht] at heq

theorem saveSessionPoints_id_lt (chunks : List SemanticChunk)
    (p : PointStruct) (hp : p ∈ saveSessionPoints chunks) :
    p.id < chunks.length := by
  have h := (mem_saveSessionPoints_characterization chunks p hp).1
  exact (List.getElem?_eq_some.mp h).1

/-- C10 amended: save_session upserts exactly the chunks whose embedding
is set and non-empty (Python truthiness; a present-but-empty embedding is
skipped), each point id being the chunk's position in the full input
list; and because upsert only overwrites matching ids, a later save over
a shorter chunk list leaves the higher-id points of the earlier save in the
collection. -/
theorem c10_save_session_amended :
    (∀ (chunks : List SemanticChunk) (p : PointStruct),
        p ∈ saveSessionPoints chunks →
          chunks[p.id]? = some p.payload
            ∧ p.payload.embedding = some p.vector ∧ p.vector ≠ [])
      ∧ (∀ (chunks : List SemanticChunk) (i : Nat) (c : SemanticChunk)
            (v : List ℚ),
          chunks[i]? = some c → c.embedding = some v → v ≠ [] →
          ({ id := i, vector := v, payload := c } : PointStruct)
            ∈ saveSessionPoints chunks)
      ∧ (∀ (coll : List (Nat × PointStruct))
            (chunksA chunksB : List SemanticChunk) (i : Nat) (p : PointStruct),
          collectionFind (saveSession coll chunksA) i = some p →
          chunksB.length ≤ i →
          collectionFind (saveSession (saveSession coll chunksA) chunksB) i
            = some p) := by
  refine ⟨mem_saveSessionPoints_characterization, ?_, ?_⟩
  · intro chunks i c v hget hemb hne
    refine List.mem_filterMap.mpr ⟨(i, c), ?_, ?_⟩
    · exact (List.mk_mem_enum_iff_getElem?).mpr (by simpa using hget)
    · have ht : truthyEmbedding c.embedding = true :=
        (truthyEmbedding_iff c.embedding).mpr ⟨v, hemb, hne⟩
      rw [hemb] at ht
      simp [ht, hemb]
  · intro coll chunksA chunksB i p hfind hlen
    have hnot : ∀ q ∈ saveSessionPoints chunksB, q.id ≠ i := by
      intro q hq
      have := saveSessionPoints_id_lt chunksB q hq
      omega
    rw [saveSession, collectionFind_qdrantUpsert_of_not_mem _ _ _ hnot]
    exact hfind

/-- Two embedded chunks saved first. -/
def sessionChunksA : List SemanticChunk :=
  [{ chunk_id := "a0", content := "first".data, source_url := "u0"
     embedding := some [1] },
   { chunk_id := "a1", content := "second".data, source_url := "u1"
     embedding := some [2] }]

/-- One embedded chunk saved later. -/
def sessionChunksB : List SemanticChunk :=
  [{ chunk_id := "b0", content := "newer".data, source_url := "u2"
     embedding := some [3] }]

/-- Witness for c10_save_session_amended: saving two chunks and then one
chunk into an empty collection leaves the id-1 point of the first save intact. -/
theorem c10_save_session_amended_witness :
    (collectionFind (saveSession [] sessionChunksA) 1
          = some { id := 1, vector := [2]
                   payload := sessionChunksA.get ⟨1, by decide⟩ }
        ∧ sessionChunksB.length ≤ 1)
      ∧ collectionFind
          (saveSession (saveSession [] sessionChunksA) sessionChunksB) 1
          = some { id := 1, vector := [2]
                   payload := sessionChunksA.get ⟨1, by decide⟩ } :=
  ⟨⟨by decide, by decide⟩,
    c10_save_session_amended.2.2 [] sessionChunksA sessionChunksB 1 _
      (by decide) (by decide)⟩

/-- Chunk whose embedding is set but has the wrong dimension for a
2-dimensional index. -/
def wrongDimensionChunk : SemanticChunk :=
  { chunk_id := "w", content := "passage".data, source_url := "u"
    embedding := some [1] }

/-- C4 counterexample: add_chunks performs no dimension check - a chunk
whose set embedding has length 1 is appended to the chunk list of a
2-dimensional store (the claim says only dimension-matching chunks are
appended), the faiss add then raises, and the chunk list is left
misaligned with the index. -/
theorem c4_no_dimension_check :
    ((FAISSVectorStore.init 2).add_chunks [wrongDimensionChunk]).1.chunks
        = [wrongDimensionChunk]
      ∧ (wrongDimensionChunk.embedding.getD []).length ≠ 2
      ∧ ((FAISSVectorStore.init 2).add_chunks [wrongDimensionChunk]).2
        = .error ()
      ∧ ((FAISSVectorStore.init 2).add_chunks [wrongDimensionChunk]).1.index.length
        ≠ ((FAISSVectorStore.init 2).add_chunks [wrongDimensionChunk]).1.chunks.length := by
  refine ⟨rfl, by decide, rfl, by decide⟩

/-- An add operation conforms to the index dimension when every truthy
embedding it carries has exactly that length; search and clear always
conform. -/
def conformingOp (dim : Nat) : VectorStoreOp → Prop
  | .add cs => ∀ c ∈ cs,
      truthyEmbedding c.embedding = true → (c.embedding.getD []).length = dim
  | .search => True
  | .clear => True

/-- Positional alignment of the store: index row i is the embedding of
chunks[i]. -/
def vectorStoreAligned (s : FAISSVectorStore) : Prop :=
  s.index = s.chunks.map (fun c => c.embedding.getD [])
    ∧ s.index.length = s.chunks.length
    ∧ ∀ (i : Nat) (hi : i < s.chunks.length),
        s.index[i]? = some ((s.chunks.get ⟨i, hi⟩).embedding.getD [])

theorem add_chunks_chunks_eq (s : FAISSVectorStore)
    (cs : List SemanticChunk) :
    (s.add_chunks cs).1.chunks
      = s.chunks ++ cs.filter (fun c => truthyEmbedding c.embedding) := by
  unfold FAISSVectorStore.add_chunks
  dsimp only
  split
  · rfl
  · split <;> rfl

theorem add_chunks_preserves_map (dim : Nat) (s : FAISSVectorStore)
    (hdim : s.dimension = dim)
    (hmap : s.index = s.chunks.map (fun c => c.embedding.getD []))
    (cs : List SemanticChunk)
    (h : ∀ c ∈ cs,
      truthyEmbedding c.embedding = true → (c.embedding.getD []).length = dim) :
    (s.add_chunks cs).1.dimension = dim
      ∧ (s.add_chunks cs).1.index
        = (s.add_chunks cs).1.chunks.map (fun c => c.embedding.getD []) := by
  have hall : ((cs.filter (fun c => truthyEmbedding c.embedding)).map
      (fun c => c.embedding.getD [])).all (fun v => v.length = s.dimension) = true := by
    rw [List.all_eq_true]
    intro v hv
    obtain ⟨c, hc, hvc⟩ := List.mem_map.mp hv
    obtain ⟨hcs, htruthy⟩ := List.mem_filter.mp hc
    subst hvc
    simp [h c hcs htruthy, hdim]
  unfold FAISSVectorStore.add_chunks
  dsimp only
  by_cases hempty : ((cs.filter (fun c => truthyEmbedding c.embedding)).map
      (fun c => c.embedding.getD [])).isEmpty = true
  · have hkept : cs.filter (fun c => truthyEmbedding c.embedding) = [] := by
      simpa using hempty
    simp [hempty, hkept, hdim, hmap]
  · rw [if_neg hempty, if_pos hall]
    simp [hdim, hmap, List.map_append]

theorem runVectorStoreOps_aligned_aux (dim : Nat) :
    ∀ (ops : List VectorStoreOp) (s : FAISSVectorStore),
      s.dimension = dim →
      s.index = s.chunks.map (fun c => c.embedding.getD []) →
      (∀ op ∈ ops, conformingOp dim op) →
      (runVectorStoreOps s ops).dimension = dim
        ∧ (runVectorStoreOps s ops).index
          = (runVectorStoreOps s ops).chunks.map (fun c => c.embedding.getD [])
  | [], s, hdim, hmap, _ => ⟨hdim, hmap⟩
  | op :: rest, s, hdim, hmap, hops => by
      have hrest : ∀ o ∈ rest, conformingOp dim o :=
        fun o ho => hops o (List.mem_cons_of_mem _ ho)
      cases op with
      | add cs =>
          have hadd := add_chunks_preserves_map dim s hdim hmap cs
            (hops (.add cs) (by simp))
          exact runVectorStoreOps_aligned_aux dim rest _ hadd.1 hadd.2 hrest
      | search => exact runVectorStoreOps_aligned_aux dim rest s hdim hmap hrest
      | clear =>
          refine runVectorStoreOps_aligned_aux dim rest s.clear ?_ ?_ hrest
          · simpa [FAISSVectorStore.clear, FAISSVectorStore.init] using hdim
          · simp [FAISSVectorStore.clear, FAISSVectorStore.init]

/-- C4 amended: add_chunks appends exactly the chunks whose embedding is
set and non-empty (Python truthiness), with no dimension check; provided
every truthy embedding handed to an add has the index dimension, any
sequence of add_chunks / search / clear operations keeps the chunk list
positionally aligned with the index (index row i is the embedding of
chunks[i]). -/
theorem c4_alignment_amended :
    (∀ (s : FAISSVectorStore) (cs : List SemanticChunk),
        (s.add_chunks cs).1.chunks
          = s.chunks ++ cs.filter (fun c => truthyEmbedding c.embedding))
      ∧ (∀ (dim : Nat) (ops : List VectorStoreOp),
          (∀ op ∈ ops, conformingOp dim op) →
          vectorStoreAligned (runVectorStoreOps (FAISSVectorStore.init dim) ops)) := by
  refine ⟨add_chunks_chunks_eq, ?_⟩
  intro dim ops hops
  obtain ⟨-, hmap⟩ := runVectorStoreOps_aligned_aux dim ops
    (FAISSVectorStore.init dim) rfl rfl hops
  refine ⟨hmap, by rw [hmap, List.length_map], ?_⟩
  intro i hi
  rw [hmap]
  have hi' : i < ((runVectorStoreOps (FAISSVectorStore.init dim) ops).chunks.map
      (fun c => c.embedding.getD [])).length := by
    rwa [List.length_map]
  rw [List.getElem?_eq_getElem hi']
  simp

/-- One conforming add for the witness. -/
def conformingOps : List VectorStoreOp :=
  [.add [{ chunk_id := "g", content := "passage".data, source_url := "u"
           embedding := some [1, 2] }], .search]

/-- Witness for c4_alignment_amended: a conforming add followed by a
search leaves the store aligned. -/
theorem c4_alignment_amended_witness :
    (∀ op ∈ conformingOps, conformingOp 2 op)
      ∧ vectorStoreAligned
          (runVectorStoreOps (FAISSVectorStore.init 2) conformingOps) := by
  have h : ∀ op ∈ conformingOps, conformingOp 2 op := by
    intro op hop
    simp only [conformingOps, List.mem_cons, List.not_mem_nil, or_false] at hop
    rcases hop with rfl | rfl
    · intro c hc _
      simp only [List.mem_singleton] at hc
      subst hc
      decide
    · trivial
  exact ⟨h, c4_alignment_amended.2 2 conformingOps h⟩

theorem dropWhile_eq_self_of_all_false {p : Char → Bool} :
    ∀ l : PyStr, (∀ c ∈ l, p c = false) → l.dropWhile p = l
  | [], _ => rfl
  | x :: xs, h => by
      simp [List.dropWhile_cons, h x (by simp)]

theorem pyStrip_eq_self (l : PyStr) (h : ∀ c ∈ l, pyIsSpace c = false) :
    pyStrip l = l := by
  unfold pyStrip
  rw [dropWhile_eq_self_of_all_false l h,
    dropWhile_eq_self_of_all_false l.reverse
      (fun c hc => h c (List.mem_reverse.mp hc)),
    List.reverse_reverse]

theorem filterMap_ite_none_eq_filter_not (p : Nat → Prop)
    [DecidablePred p] (l : List Nat) :
    (l.filterMap (fun a => if p a then none else some a))
      = l.filter (fun a => !(decide (p a))) := by
  induction l with
  | nil => rfl
  | cons x xs ih => by_cases hx : p x <;> simp [hx, ih]

theorem filter_range_lt_eq_range_min (T : Nat) :
    ∀ N : Nat, (List.range N).filter (fun k => decide (k < T))
      = List.range (min N T)
  | 0 => by simp
  | N + 1 => by
      rw [List.range_succ, List.filter_append,
        filter_range_lt_eq_range_min T N]
      by_cases hN : N < T
      · have : min (N + 1) T = min N T + 1 := by omega
        rw [this, List.range_succ]
        simp [hN]
        omega
      · have : min (N + 1) T = min N T := by omega
        rw [this]
        simp [hN]

/-- Number of windows the sliding partition keeps on whitespace-free
content of length L: one per offset 0, 800, 1600, ... while at least 50
characters remain. -/
def keptWindowCount (L : Nat) : Nat :=
  if L < 50 then 0 else (L - 50) / 800 + 1

theorem createRawChunks_positions (content : PyStr) (url : String)
    (h : ∀ c ∈ content, pyIsSpace c = false) :
    (ContextualChunkingAdapter.create_raw_chunks 1000 200 content url).map
        RawChunk.position
      = (List.range (keptWindowCount content.length)).map (fun k => k * 800) := by
  set L := content.length with hL
  have hwindow : ∀ i : Nat,
      (pyStrip ((content.drop i).take 1000)).length = min 1000 (L - i) := by
    intro i
    rw [pyStrip_eq_self _ (fun c hc =>
      h c (List.drop_subset i content (List.take_subset 1000 _ hc)))]
    simp [hL]
  have hstep : ContextualChunkingAdapter.create_raw_chunks 1000 200 content url
      = (pyRange 0 L 800).filterMap (fun i =>
          if (pyStrip ((content.drop i).take 1000)).length < 50 then none
          else some ⟨(content.drop i).take 1000, i, url⟩) := rfl
  rw [hstep, List.map_filterMap]
  have hpts : ∀ i : Nat,
      ((if (pyStrip ((content.drop i).take 1000)).length < 50 then none
        else some (⟨(content.drop i).take 1000, i, url⟩ : RawChunk)).map
          RawChunk.position)
        = (if min 1000 (L - i) < 50 then none else some i) := by
    intro i
    rw [hwindow i]
    by_cases hc : min 1000 (L - i) < 50 <;> simp [hc]
  calc (pyRange 0 L 800).filterMap (fun i =>
          ((if (pyStrip ((content.drop i).take 1000)).length < 50 then none
            else some (⟨(content.drop i).take 1000, i, url⟩ : RawChunk)).map
              RawChunk.position))
      = (pyRange 0 L 800).filterMap (fun i =>
          if min 1000 (L - i) < 50 then none else some i) := by
        exact List.filterMap_congr (fun i _ => hpts i)
    _ = (pyRange 0 L 800).filter (fun i => !(decide (min 1000 (L - i) < 50))) :=
        filterMap_ite_none_eq_filter_not _ _
    _ = ((List.range ((L + 799) / 800)).map (fun k => k * 800)).filter
          (fun i => !(decide (min 1000 (L - i) < 50))) := by
        simp [pyRange]
    _ = ((List.range ((L + 799) / 800)).filter
          (fun k => !(decide (min 1000 (L - k * 800) < 50)))).map
            (fun k => k * 800) := by
        rw [List.filter_map]
        rfl
    _ = ((List.range ((L + 799) / 800)).filter
          (fun k => decide (k < keptWindowCount L))).map (fun k => k * 800) := by
        refine congrArg _ (List.filter_congr ?_)
        intro k _
        have hiff : (50 ≤ min 1000 (L - k * 800)) ↔ k < keptWindowCount L := by
          unfold keptWindowCount
          by_cases hL50 : L < 50
          · simp only [if_pos hL50]
            omega
          · simp only [if_neg hL50]
            have hdiv : k ≤ (L - 50) / 800 ↔ k * 800 ≤ L - 50 :=
              Nat.le_div_iff_mul_le (by norm_num)
            omega
        by_cases hk : k < keptWindowCount L
        · simpa [hk] using hiff.mpr hk
        · have : ¬ 50 ≤ min 1000 (L - k * 800) := fun hc => hk (hiff.mp hc)
          simpa [hk] using by omega
    _ = (List.range (min ((L + 799) / 800) (keptWindowCount L))).map
          (fun k => k * 800) := by
        rw [filter_range_lt_eq_range_min]
    _ = (List.range (keptWindowCount L)).map (fun k => k * 800) := by
        have hmin : min ((L + 799) / 800) (keptWindowCount L)
            = keptWindowCount L := by
          unfold keptWindowCount
          by_cases hL50 : L < 50
          · simp only [if_pos hL50]
            omega
          · simp only [if_neg hL50]
            have h1 : (L - 50) / 800 + 1 = (L - 50 + 800) / 800 :=
              (Nat.add_div_right _ (by norm_num)).symm
            have h2 : (L - 50 + 800) / 800 ≤ (L + 799) / 800 :=
              Nat.div_le_div_right (by omega)
            omega
        rw [hmin]

theorem createRawChunks_length (content : PyStr) (url : String)
    (h : ∀ c ∈ content, pyIsSpace c = false) :
    (ContextualChunkingAdapter.create_raw_chunks 1000 200 content url).length
      = keptWindowCount content.length := by
  have := congrArg List.length (createRawChunks_positions content url h)
  simpa using this

/-- C6 counterexample: on a whitespace-free document of length 850 the
sliding window keeps two windows (offsets 0 and 800; the tail window has
exactly 50 characters and survives the discard), while the claimed
ceiling formula gives one. -/
theorem c6_ceiling_formula_fails :
    (ContextualChunkingAdapter.create_raw_chunks 1000 200
        (List.replicate 850 'a') "u").length = 2
      ∧ (850 - 50 + (800 - 1)) / 800 = 1
      ∧ (2 : Nat) ≠ 1 := by
  refine ⟨?_, by norm_num, by norm_num⟩
  rw [createRawChunks_length _ _ (fun c hc => by
    rw [List.eq_of_mem_replicate hc]
    decide), List.length_replicate]
  decide

/-- C6 amended: with chunk_size = 1000 and overlap = 200, the sliding
window partition (the loop shared by the simple chunker, lines 24-27, and
_create_raw_chunks, lines 83-94, of chunking_adapter.py) keeps, on
whitespace-free content of length L, exactly floor((L - 50) / 800) + 1
windows when L is at least 50 and none otherwise; the kept windows start
at offsets 0, 800, 1600, ... and each spans up to 1000 characters from
its offset.  The ceiling formula of the claim undercounts by one whenever
the tail window has exactly 50 characters. -/
theorem c6_window_partition_amended (content : PyStr) (url : String)
    (h : ∀ c ∈ content, pyIsSpace c = false) :
    (ContextualChunkingAdapter.create_raw_chunks 1000 200 content url).map
        RawChunk.position
        = (List.range (keptWindowCount content.length)).map (fun k => k * 800)
      ∧ (ContextualChunkingAdapter.create_raw_chunks 1000 200 content url).length
        = keptWindowCount content.length
      ∧ ∀ w ∈ ContextualChunkingAdapter.create_raw_chunks 1000 200 content url,
          w.text = (content.drop w.position).take 1000 := by
  refine ⟨createRawChunks_positions content url h,
    createRawChunks_length content url h, ?_⟩
  intro w hw
  obtain ⟨i, _, hi⟩ := List.mem_filterMap.mp hw
  by_cases hc : (pyStrip ((content.drop i).take 1000)).length < 50
  · simp [ContextualChunkingAdapter.create_raw_chunks, hc] at hi
  · simp only [hc, if_neg, ite_false] at hi
    cases hi
    rfl

/-- Witness for c6_window_partition_amended on a 100-character
whitespace-free document: one window at offset 0. -/
theorem c6_window_partition_amended_witness :
    (∀ c ∈ exampleContent, pyIsSpace c = false)
      ∧ ((ContextualChunkingAdapter.create_raw_chunks 1000 200 exampleContent
            "u").map RawChunk.position
          = (List.range (keptWindowCount exampleContent.length)).map
              (fun k => k * 800)
        ∧ (ContextualChunkingAdapter.create_raw_chunks 1000 200 exampleContent
            "u").length = keptWindowCount exampleContent.length
        ∧ ∀ w ∈ ContextualChunkingAdapter.create_raw_chunks 1000 200
            exampleContent "u",
            w.text = (exampleContent.drop w.position).take 1000) :=
  ⟨by decide, c6_window_partition_amended exampleContent "u" (by decide)⟩

theorem dictFind_dictSet {β : Type} (m : List (String × β)) (k : String)
    (v : β) (k' : String) :
    dictFind (dictSet m k v) k' = if k = k' then some v else dictFind m k' := by
  induction m with
  | nil =>
      by_cases h : k = k' <;> simp [dictSet, dictFind, h]
  | cons kv rest ih =>
      obtain ⟨k0, v0⟩ := kv
      by_cases h0 : k0 = k
      · subst h0
        by_cases h' : k0 = k' <;> simp [dictSet, dictFind, h']
      · by_cases h' : k0 = k'
        · subst h'
          have : k ≠ k0 := fun hk => h0 hk.symm
          simp [dictSet, dictFind, h0, this]
        · simp [dictSet, dictFind, h0, h', ih]

theorem dictGet_dictSet (m : List (String × ℚ)) (k : String) (v : ℚ)
    (k' : String) :
    dictGet (dictSet m k v) k' = if k = k' then v else dictGet m k' := by
  unfold dictGet
  rw [dictFind_dictSet]
  by_cases h : k = k' <;> simp [h]

/-- The fused score the specification ascribes to a chunk id in one
ranked list: a rank-r occurrence contributes 1 / (C + r + 1) (0-indexed
ranks), and contributions of repeated occurrences add up. -/
def rrfSpecContribution (kconst : Nat) : Nat → List RetrievalItem → String → ℚ
  | _, [], _ => 0
  | rank, item :: rest, cid =>
      (if item.chunk.chunk_id = cid then 1 / ((kconst : ℚ) + rank + 1) else 0)
        + rrfSpecContribution kconst (rank + 1) rest cid

/-- The fused score the specification ascribes to a chunk id with
C = 60: contributions summed across both ranked lists. -/
def rrfSpecScore (vector_results keyword_results : List RetrievalItem)
    (cid : String) : ℚ :=
  rrfSpecContribution 60 0 vector_results cid
    + rrfSpecContribution 60 0 keyword_results cid

theorem rrfPass_dictGet (kconst : Nat) :
    ∀ (l : List RetrievalItem) (m : List (String × ℚ)) (rank : Nat)
      (cid : String),
      dictGet (rrfPass kconst m l rank) cid
        = dictGet m cid + rrfSpecContribution kconst rank l cid
  | [], m, rank, cid => by simp [rrfPass, rrfSpecContribution]
  | item :: rest, m, rank, cid => by
      rw [rrfPass, rrfPass_dictGet kconst rest _ (rank + 1) cid,
        dictGet_dictSet, rrfSpecContribution]
      by_cases hid : item.chunk.chunk_id = cid
      · subst hid
        rw [if_pos rfl, if_pos rfl]
        ring
      · rw [if_neg hid, if_neg hid]
        ring

theorem rrf_scores_eq (vector_results keyword_results : List RetrievalItem)
    (cid : String) :
    dictGet (reciprocal_rank_fusion vector_results keyword_results).1 cid
      = rrfSpecScore vector_results keyword_results cid := by
  show dictGet (rrfPass 60 (rrfPass 60 [] vector_results 0) keyword_results 0)
      cid = _
  rw [rrfPass_dictGet, rrfPass_dictGet, rrfSpecScore]
  simp [dictGet, dictFind]
  try ring

/-- Keys of an insertion-ordered dictionary. -/
def dictKeys {β : Type} (m : List (String × β)) : List String :=
  m.map Prod.fst

theorem dictKeys_dictSet_mem {β : Type} (m : List (String × β)) (k : String)
    (v : β) :
    ∀ k', k' ∈ dictKeys (dictSet m k v) ↔ (k' ∈ dictKeys m ∨ k' = k) := by
  induction m with
  | nil => simp [dictSet, dictKeys]
  | cons kv rest ih =>
      obtain ⟨k0, v0⟩ := kv
      intro k'
      by_cases h0 : k0 = k
      · subst h0
        simp [dictSet, dictKeys]
        tauto
      · simp only [dictSet, if_neg h0, dictKeys, List.map_cons, List.mem_cons]
        have := ih k'
        simp only [dictKeys] at this
        rw [this]
        tauto

theorem dictKeys_dictSet_nodup {β : Type} (m : List (String × β)) (k : String)
    (v : β) (h : (dictKeys m).Nodup) : (dictKeys (dictSet m k v)).Nodup := by
  induction m with
  | nil => simp [dictSet, dictKeys]
  | cons kv rest ih =>
      obtain ⟨k0, v0⟩ := kv
      simp only [dictKeys, List.map_cons, List.nodup_cons] at h
      by_cases h0 : k0 = k
      · subst h0
        simpa [dictSet, dictKeys, List.nodup_cons] using h
      · have hrest := ih h.2
        simp only [dictSet, if_neg h0, dictKeys, List.map_cons, List.nodup_cons]
        refine ⟨?_, hrest⟩
        intro hmem
        have := (dictKeys_dictSet_mem rest k v k0).mp hmem
        rcases this with hin | rfl
        · exact h.1 hin
        · exact h0 rfl

theorem rrfPass_nodup_keys (kconst : Nat) :
    ∀ (l : List RetrievalItem) (m : List (String × ℚ)) (rank : Nat),
      (dictKeys m).Nodup → (dictKeys (rrfPass kconst m l rank)).Nodup
  | [], _, _, h => h
  | _ :: rest, m, rank, h =>
      rrfPass_nodup_keys kconst rest _ (rank + 1)
        (dictKeys_dictSet_nodup m _ _ h)

theorem dictFind_eq_of_mem {β : Type} :
    ∀ (m : List (String × β)), (dictKeys m).Nodup →
      ∀ (k : String) (s : β), (k, s) ∈ m → dictFind m k = some s
  | [], _, _, _, h => by simp at h
  | (k0, v0) :: rest, hnd, k, s, hmem => by
      simp only [dictKeys, List.map_cons, List.nodup_cons] at hnd
      rcases List.mem_cons.mp hmem with heq | htail
      · obtain ⟨rfl, rfl⟩ := Prod.mk.injEq .. ▸ heq
        simp [dictFind]
      · have hk0 : k0 ≠ k := by
          rintro rfl
          exact hnd.1 (List.mem_map.mpr ⟨(k0, s), htail, rfl⟩)
        simp only [dictFind, if_neg hk0]
        exact dictFind_eq_of_mem rest hnd.2 k s htail

theorem rrfSpecContribution_eq_zero (kconst : Nat) :
    ∀ (rank : Nat) (l : List RetrievalItem) (cid : String),
      (∀ i ∈ l, i.chunk.chunk_id ≠ cid) →
      rrfSpecContribution kconst rank l cid = 0
  | _, [], _, _ => rfl
  | rank, item :: rest, cid, h => by
      rw [rrfSpecContribution, if_neg (h item (by simp)),
        rrfSpecContribution_eq_zero kconst (rank + 1) rest cid
          (fun i hi => h i (List.mem_cons_of_mem _ hi))]
      ring

/-- C7: reciprocal rank fusion with C = 60.  The accumulated score of
every chunk id equals the specification sum (1 / (C + r + 1) per
0-indexed rank-r occurrence, summed across both lists); the sorted pair
list the output is read from is descending in fused score, and each of
its entries carries exactly the specification score of its chunk id; a
chunk at rank 0 of only the dense list scores exactly 1/61, and a chunk
at rank 0 of both lists scores exactly 2/61. -/
theorem c7_reciprocal_rank_fusion (v kw : List RetrievalItem) :
    (∀ cid, dictGet (reciprocal_rank_fusion v kw).1 cid
        = rrfSpecScore v kw cid)
      ∧ List.Sorted rrfDescending (reciprocal_rank_fusion v kw).2.1
      ∧ (∀ cid s, (cid, s) ∈ (reciprocal_rank_fusion v kw).2.1 →
          s = rrfSpecScore v kw cid)
      ∧ (∀ item, v.head? = some item →
          (∀ i ∈ v.tail, i.chunk.chunk_id ≠ item.chunk.chunk_id) →
          (∀ i ∈ kw, i.chunk.chunk_id ≠ item.chunk.chunk_id) →
          dictGet (reciprocal_rank_fusion v kw).1 item.chunk.chunk_id
            = 1 / 61)
      ∧ (∀ iv ik, v.head? = some iv → kw.head? = some ik →
          ik.chunk.chunk_id = iv.chunk.chunk_id →
          (∀ i ∈ v.tail, i.chunk.chunk_id ≠ iv.chunk.chunk_id) →
          (∀ i ∈ kw.tail, i.chunk.chunk_id ≠ iv.chunk.chunk_id) →
          dictGet (reciprocal_rank_fusion v kw).1 iv.chunk.chunk_id
            = 2 / 61) := by
  refine ⟨rrf_scores_eq v kw, ?_, ?_, ?_, ?_⟩
  · exact List.sorted_insertionSort rrfDescending _
  · intro cid s hmem
    have hperm : List.Perm
        (List.insertionSort rrfDescending (rrfPass 60 (rrfPass 60 [] v 0) kw 0))
        (rrfPass 60 (rrfPass 60 [] v 0) kw 0) :=
      List.perm_insertionSort _ _
    have hmem' : (cid, s) ∈ rrfPass 60 (rrfPass 60 [] v 0) kw 0 :=
      hperm.mem_iff.mp hmem
    have hnodup : (dictKeys (rrfPass 60 (rrfPass 60 [] v 0) kw 0)).Nodup :=
      rrfPass_nodup_keys 60 kw _ 0
        (rrfPass_nodup_keys 60 v [] 0 (by simp [dictKeys]))
    have hfind := dictFind_eq_of_mem _ hnodup cid s hmem'
    have : dictGet (rrfPass 60 (rrfPass 60 [] v 0) kw 0) cid = s := by
      simp [dictGet, hfind]
    rw [← this]
    exact rrf_scores_eq v kw cid
  · intro item hhead htail hkw
    cases v with
    | nil => simp at hhead
    | cons v0 vrest =>
        obtain rfl : v0 = item := by simpa using hhead
        rw [rrf_scores_eq, rrfSpecScore, rrfSpecContribution,
          if_pos rfl,
          rrfSpecContribution_eq_zero 60 1 vrest _ (by simpa using htail),
          rrfSpecContribution_eq_zero 60 0 kw _ hkw]
        norm_num
  · intro iv ik hheadv hheadk hik htailv htailk
    cases v with
    | nil => simp at hheadv
    | cons v0 vrest =>
        cases kw with
        | nil => simp at hheadk
        | cons k0 krest =>
            obtain rfl : v0 = iv := by simpa using hheadv
            obtain rfl : k0 = ik := by simpa using hheadk
            rw [rrf_scores_eq, rrfSpecScore, rrfSpecContribution,
              rrfSpecContribution, if_pos rfl, if_pos hik,
              rrfSpecContribution_eq_zero 60 1 vrest _ (by simpa using htailv),
              rrfSpecContribution_eq_zero 60 1 krest _ (by simpa using htailk)]
            norm_num

/-- Retrieval item used by the RRF witness. -/
def denseOnlyItem : RetrievalItem :=
  { chunk := { chunk_id := "a", content := "passage".data, source_url := "u" }
    score := 0 }

/-- Witness for c7_reciprocal_rank_fusion: a chunk appearing only at rank
0 of the dense list receives fused score exactly 1/61. -/
theorem c7_reciprocal_rank_fusion_witness :
    (([denseOnlyItem].head? = some denseOnlyItem)
        ∧ (∀ i ∈ [denseOnlyItem].tail,
            i.chunk.chunk_id ≠ denseOnlyItem.chunk.chunk_id)
        ∧ (∀ i ∈ ([] : List RetrievalItem),
            i.chunk.chunk_id ≠ denseOnlyItem.chunk.chunk_id))
      ∧ dictGet (reciprocal_rank_fusion [denseOnlyItem] []).1
          denseOnlyItem.chunk.chunk_id = 1 / 61 :=
  ⟨⟨rfl, by simp, by simp⟩,
    (c7_reciprocal_rank_fusion [denseOnlyItem] []).2.2.2.1 denseOnlyItem
      rfl (by simp) (by simp)⟩

end WebSearchChunk
